import Mathlib

/-!
Verification of the gdb-js core: a shallow embedding of the GDB/MI output
parser (`src/parsers/gdbmi.pegjs`), the stream wiring and request queue, the
serialization mutex, the event handlers and the breakpoint facade of
`src/index.js`, together with theorems settling the specification claims.
-/

namespace GdbJs

/-- JSON-like values produced by the MI parser: decoded c-strings, plain
objects (insertion-ordered key/value lists, as built by `makeResults`),
arrays, and the `{name, value}` pair objects that a list of results keeps
unflattened. -/
inductive JSVal where
  | str : String → JSVal
  | obj : List (String × JSVal) → JSVal
  | arr : List JSVal → JSVal
  | res : Option String → JSVal → JSVal
deriving Repr

/-- The payload of a result or async record: a plain JS object. -/
abbrev JSObj := List (String × JSVal)

/-- Property lookup on a plain JS object (first binding wins, later keys are
merged by `makeResults` before an object is built). -/
def jsLookup : JSObj → String → Option JSVal
  | [], _ => none
  | (k, v) :: r, key => if k = key then some v else jsLookup r key

/-- First phase of `makeResults`: the loop
`if (!arr[i].name) arr[i].name = arr[i - 1].name`. A nameless entry takes the
name of the entry just before it (after that entry itself was filled in); for
a nameless first entry the source reads `arr[-1].name`, i.e. the `name`
property of `undefined`, which raises a TypeError — modelled as `.error`. -/
def fillNames : Option String → List (Option String × JSVal) →
    Except Unit (List (String × JSVal))
  | _, [] => .ok []
  | prev, (name, v) :: rest =>
    match name, prev with
    | some n, _ => do
      let r ← fillNames (some n) rest
      .ok ((n, v) :: r)
    | none, some n => do
      let r ← fillNames (some n) rest
      .ok ((n, v) :: r)
    | none, none => .error ()

/-- One step of the `reduce` in `makeResults`: push `v` onto the bucket of
key `k`, keeping the bucket at the position of the key's first occurrence. -/
def groupPush (acc : List (String × List JSVal)) (k : String) (v : JSVal) :
    List (String × List JSVal) :=
  match acc with
  | [] => [(k, [v])]
  | (k1, vs) :: r =>
    if k1 = k then (k1, vs ++ [v]) :: r else (k1, vs) :: groupPush r k v

/-- The `makeResults` helper of `gdbmi.pegjs`: fill in missing names from the
preceding entry (TypeError when the very first entry is nameless), group the
values by name in insertion order, and unwrap the buckets that hold a single
value. -/
def makeResults (arr : List (Option String × JSVal)) : Except Unit JSObj := do
  let named ← fillNames none arr
  let grouped := named.foldl (fun acc kv => groupPush acc kv.1 kv.2) []
  .ok (grouped.map (fun kv =>
    (kv.1, match kv.2 with
      | [v] => v
      | vs => JSVal.arr vs)))

/-- Outcome of running one PEG expression: no match (the enclosing ordered
choice may try the next alternative), a thrown JS exception (aborts the whole
parse), or a match with the produced value and the remaining input. -/
inductive PRes (α : Type) where
  | fail
  | err
  | ok (a : α) (rest : List Char)
deriving Repr

/-- Transform the value of a match, leaving failures and exceptions alone. -/
def PRes.map {α β : Type} (f : α → β) : PRes α → PRes β
  | .fail => .fail
  | .err => .err
  | .ok a rest => .ok (f a) rest

/-- Ordered choice: try the second alternative only when the first failed to
match; a thrown exception propagates. -/
def pOr {α : Type} (r : PRes α) (f : Unit → PRes α) : PRes α :=
  match r with
  | .fail => f ()
  | r => r

/-- Match a literal string. -/
def lit (pat : String) (s : List Char) : PRes Unit :=
  if pat.toList.isPrefixOf s then .ok () (s.drop pat.length) else .fail

/-- Characters allowed in the grammar's `String` rule, `[a-z-]+`. -/
def isNameChar (c : Char) : Bool := c.isLower || c == '-'

/-- The `String` token rule `[a-z-]+` (greedy, at least one character). -/
def parseStringTok (s : List Char) : PRes String :=
  let n := s.takeWhile isNameChar
  if n.isEmpty then .fail else .ok (String.mk n) (s.drop n.length)

/-- Decode one escape of the `Escaped` rule; `none` when the escape rule does
not match the character. -/
def escDecode (c : Char) : Option Char :=
  if c = '"' then some '"'
  else if c = '\\' then some '\\'
  else if c = 'b' then some (Char.ofNat 8)
  else if c = 'f' then some (Char.ofNat 12)
  else if c = 'n' then some '\n'
  else if c = 'r' then some '\r'
  else if c = 't' then some '\t'
  else none

/-- Membership in the character class `[\x20-\x21\x23-\x5B\x5D-ჿFF]`:
everything from space upward except the double quote and the backslash. -/
def isPlainChar (c : Char) : Bool := decide (32 ≤ c.toNat) && c != '"' && c != '\\'

/-- Greedy `Char*` of the `Const` rule: plain characters pass through,
backslash escapes are decoded, and the scan stops at the first character
matching neither alternative (in particular at the closing quote). Returns
the decoded characters and the unconsumed rest. -/
def parseChars : List Char → (List Char × List Char)
  | [] => ([], [])
  | '\\' :: rest =>
    match rest with
    | [] => ([], ['\\'])
    | c :: r =>
      match escDecode c with
      | some d =>
        let (a, b) := parseChars r
        (d :: a, b)
      | none => ([], '\\' :: c :: r)
  | c :: r =>
    if isPlainChar c then
      let (a, b) := parseChars r
      (c :: a, b)
    else ([], c :: r)

/-- The `Const` rule: a double-quoted c-string with escapes decoded. -/
def parseConst (s : List Char) : PRes String :=
  match s with
  | '"' :: r =>
    match parseChars r with
    | (cs, '"' :: r3) => .ok (String.mk cs) r3
    | _ => .fail
  | _ => .fail

mutual

/-- The `Value` rule: `Const / Tuple / List`, ordered. -/
def parseValue : Nat → List Char → PRes JSVal
  | 0, _ => .err
  | fuel + 1, s =>
    match parseConst s with
    | .ok v r => .ok (JSVal.str v) r
    | _ =>
      match parseTuple fuel s with
      | .ok v r => .ok v r
      | .err => .err
      | .fail => parseJList fuel s

/-- The `Tuple` rule: `"{}"` or `"{" Result ResultsList "}"`, flattened
through `makeResults` (whose TypeError propagates as `.err`). -/
def parseTuple : Nat → List Char → PRes JSVal
  | 0, _ => .err
  | fuel + 1, s =>
    match s with
    | '{' :: '}' :: r => .ok (JSVal.obj []) r
    | '{' :: r =>
      match parseResult fuel r with
      | .ok res r2 =>
        match parseResultsList fuel r2 with
        | .ok ress r3 =>
          match r3 with
          | '}' :: r4 =>
            match makeResults (res :: ress) with
            | .ok o => .ok (JSVal.obj o) r4
            | .error _ => .err
          | _ => .fail
        | .err => .err
        | .fail => .fail
      | .err => .err
      | .fail => .fail
    | _ => .fail

/-- The `List` rule: `"[]"`, or a bracketed `Value ValuesList`, or — when
that alternative fails without throwing — a bracketed `Result ResultsList`
kept as an array of `{name, value}` objects (no flattening). -/
def parseJList : Nat → List Char → PRes JSVal
  | 0, _ => .err
  | fuel + 1, s =>
    match s with
    | '[' :: ']' :: r => .ok (JSVal.arr []) r
    | '[' :: r =>
      match parseValue fuel r with
      | .err => .err
      | .ok v r2 =>
        match parseValuesList fuel r2 with
        | .ok vs r3 =>
          match r3 with
          | ']' :: r4 => .ok (JSVal.arr (v :: vs)) r4
          | _ => parseListResults fuel r
        | .err => .err
        | .fail => parseListResults fuel r
      | .fail => parseListResults fuel r
    | _ => .fail

/-- Third alternative of the `List` rule, starting right after the opening
bracket. -/
def parseListResults : Nat → List Char → PRes JSVal
  | 0, _ => .err
  | fuel + 1, r =>
    match parseResult fuel r with
    | .ok res r2 =>
      match parseResultsList fuel r2 with
      | .ok ress r3 =>
        match r3 with
        | ']' :: r4 =>
          .ok (JSVal.arr ((res :: ress).map (fun p => JSVal.res p.1 p.2))) r4
        | _ => .fail
      | .err => .err
      | .fail => .fail
    | .err => .err
    | .fail => .fail

/-- The `Result` rule: an optional `String` name, an optional `=`, then a
`Value`. The committed-choice semantics of PEG means a name that matched is
never given back even if the rest of the rule fails. -/
def parseResult : Nat → List Char → PRes (Option String × JSVal)
  | 0, _ => .err
  | fuel + 1, s =>
    let p :=
      match parseStringTok s with
      | .ok n r => (some n, r)
      | _ => ((none : Option String), s)
    let s2 :=
      match p.2 with
      | '=' :: r => r
      | _ => p.2
    match parseValue fuel s2 with
    | .ok v r => .ok (p.1, v) r
    | .err => .err
    | .fail => .fail

/-- The `ResultsList` rule: zero or more of `"," Result`; a failed iteration
backtracks the comma and stops the star. -/
def parseResultsList : Nat → List Char → PRes (List (Option String × JSVal))
  | 0, _ => .err
  | fuel + 1, s =>
    match s with
    | ',' :: r =>
      match parseResult fuel r with
      | .ok res r2 =>
        match parseResultsList fuel r2 with
        | .ok ress r3 => .ok (res :: ress) r3
        | .err => .err
        | .fail => .fail
      | .err => .err
      | .fail => .ok [] s
    | _ => .ok [] s

/-- The `ValuesList` rule: zero or more of `"," Value`. -/
def parseValuesList : Nat → List Char → PRes (List JSVal)
  | 0, _ => .err
  | fuel + 1, s =>
    match s with
    | ',' :: r =>
      match parseValue fuel r with
      | .ok v r2 =>
        match parseValuesList fuel r2 with
        | .ok vs r3 => .ok (v :: vs) r3
        | .err => .err
        | .fail => .fail
      | .err => .err
      | .fail => .ok [] s
    | _ => .ok [] s

end

/-- A parsed MI line, as produced by the actions of `gdbmi.pegjs`. The
grammar's fallback alternative labels an unrecognized line `target`, and the
prompt line gets a record of its own. -/
inductive Record where
  | result (state : String) (data : JSObj)
  | exec (state : String) (data : JSObj)
  | status (state : String) (data : JSObj)
  | notify (state : String) (data : JSObj)
  | console (data : String)
  | target (data : String)
  | log (data : String)
  | prompt
deriving Repr

/-- Fuel that dominates the recursion depth of the value grammar on the given
input (each level of nesting consumes input, three rules deep per level). -/
def fuelFor (s : List Char) : Nat := 4 * s.length + 64

/-- The `ResultClass` rule: one of the five literal classes, in grammar
order. -/
def parseResClass (s : List Char) : PRes String :=
  pOr ((lit "done" s).map (fun _ => "done")) (fun _ =>
    pOr ((lit "running" s).map (fun _ => "running")) (fun _ =>
      pOr ((lit "connected" s).map (fun _ => "connected")) (fun _ =>
        pOr ((lit "error" s).map (fun _ => "error")) (fun _ =>
          (lit "exit" s).map (fun _ => "exit")))))

/-- The `AsyncClass` rule: the literal `stopped`, else a `String` token. -/
def parseAsyncClass (s : List Char) : PRes String :=
  pOr ((lit "stopped" s).map (fun _ => "stopped")) (fun _ => parseStringTok s)

/-- Results list followed by the `makeResults` flattening, shared by result
and async records. -/
def parseBody (s : List Char) : PRes JSObj :=
  match parseResultsList (fuelFor s) s with
  | .ok ress r =>
    match makeResults ress with
    | .ok o => .ok o r
    | .error _ => .err
  | .err => .err
  | .fail => .fail

/-- An async record after its symbol: `AsyncClass ResultsList` with
`makeResults` applied. -/
def parseAsyncOutput (s : List Char) : PRes (String × JSObj) :=
  match parseAsyncClass s with
  | .ok st r =>
    match parseBody r with
    | .ok d r2 => .ok (st, d) r2
    | .err => .err
    | .fail => .fail
  | .err => .err
  | .fail => .fail

/-- One of the three async record alternatives: an optional numeric token,
the given symbol, then `AsyncOutput`. A token that matched but is not
followed by the symbol makes the alternative fail as a whole. -/
def parseAsyncRec (sym : Char) (mk : String → JSObj → Record)
    (s : List Char) : PRes Record :=
  match s.dropWhile Char.isDigit with
  | c :: r =>
    if c = sym then
      match parseAsyncOutput r with
      | .ok sd r2 => .ok (mk sd.1 sd.2) r2
      | .err => .err
      | .fail => .fail
    else .fail
  | [] => .fail

/-- A stream record: the given symbol then a `Const` c-string. -/
def parseStreamRec (sym : Char) (mk : String → Record) (s : List Char) :
    PRes Record :=
  match s with
  | c :: r =>
    if c = sym then
      match parseConst r with
      | .ok d r2 => .ok (mk d) r2
      | _ => .fail
    else .fail
  | [] => .fail

/-- The `ResultRecord` rule: optional token, `^`, a `ResultClass`, then the
results list. -/
def parseResultRec (s : List Char) : PRes Record :=
  match s.dropWhile Char.isDigit with
  | '^' :: r =>
    match parseResClass r with
    | .ok st r2 =>
      match parseBody r2 with
      | .ok d r3 => .ok (Record.result st d) r3
      | .err => .err
      | .fail => .fail
    | _ => .fail
  | _ => .fail

/-- The `Line` rule: ordered choice over async records, stream records, the
result record, the prompt, and the catch-all `(.*)` fallback that yields a
`target` record with the raw line. -/
def parseLine (s : List Char) : PRes Record :=
  pOr (parseAsyncRec '*' Record.exec s) (fun _ =>
    pOr (parseAsyncRec '+' Record.status s) (fun _ =>
      pOr (parseAsyncRec '=' Record.notify s) (fun _ =>
        pOr (parseStreamRec '~' Record.console s) (fun _ =>
          pOr (parseStreamRec '@' Record.target s) (fun _ =>
            pOr (parseStreamRec '&' Record.log s) (fun _ =>
              pOr (parseResultRec s) (fun _ =>
                pOr ((lit "(gdb) " s).map (fun _ => Record.prompt)) (fun _ =>
                  .ok (Record.target (String.mk s)) []))))))))

/-- The generated `parse` entry point: run `Line` on the whole line. A thrown
action exception (TypeError in `makeResults`) or leftover input after the
committed alternative (PEG.js raises a SyntaxError) both surface as a thrown
exception, modelled as `.error`. -/
def parseMI (s : String) : Except Unit Record :=
  match parseLine s.toList with
  | .ok r [] => .ok r
  | .ok _ (_ :: _) => .error ()
  | .fail => .error ()
  | .err => .error ()

/-! JavaScript-semantics helpers used by `index.js`. -/

mutual

/-- JavaScript string conversion of a parser value, as performed implicitly
by `parseInt` and template literals: strings pass through, plain objects
print as `[object Object]`, arrays join their elements with commas. -/
def jsToString : JSVal → String
  | .str s => s
  | .obj _ => "[object Object]"
  | .res _ _ => "[object Object]"
  | .arr l => String.intercalate "," (jsToStringList l)

/-- String conversion of every element of an array. -/
def jsToStringList : List JSVal → List String
  | [] => []
  | v :: r => jsToString v :: jsToStringList r

end

/-- JavaScript `parseInt(str, 10)`: skip leading whitespace, read an optional
sign and a longest digit prefix; `none` models the `NaN` result. -/
def parseIntJS (s : String) : Option Int :=
  let l := s.toList.dropWhile (fun c => c = ' ' || c = '\t' || c = '\n' || c = '\r')
  let p : (Int × List Char) :=
    match l with
    | '-' :: r => (-1, r)
    | '+' :: r => (1, r)
    | _ => (1, l)
  let ds := p.2.takeWhile Char.isDigit
  if ds.isEmpty then none
  else some (p.1 * (ds.foldl (fun n c => n * 10 + (c.toNat - 48)) 0 : Nat))

/-- The `toInt` helper of `index.js` applied to a possibly-undefined value:
`parseInt` of its string conversion, `none` for `NaN`. -/
def toIntJS : Option JSVal → Option Int
  | none => none
  | some v => parseIntJS (jsToString v)

/-- JavaScript truthiness of a defined parser value: only the empty string
is falsy among the values the parser produces. -/
def truthyV : JSVal → Bool
  | .str s => !s.isEmpty
  | _ => true

/-- JavaScript truthiness of a possibly-undefined value. -/
def truthy : Option JSVal → Bool
  | none => false
  | some v => truthyV v

/-- Reading a property of a possibly-undefined value: on `undefined` this is
a TypeError (`.error`); on defined non-object values the result is
`undefined`; on objects it is a lookup. -/
def propAccess : Option JSVal → String → Except Unit (Option JSVal)
  | none, _ => .error ()
  | some (.obj l), k => .ok (jsLookup l k)
  | some _, _ => .ok none

/-- String conversion as used inside a template literal, where `undefined`
prints as the word `undefined`. -/
def jsDisplay : Option JSVal → String
  | none => "undefined"
  | some v => jsToString v

/-! The result/queue wiring of the `GDB` constructor: the parsed-record
stream is filtered down to result records and zipped with the queue of
pending requests; an `error` class rejects the request with a `GDBError`
built from the command text, `data.msg` and `data.code`, and a non-error
result resolves an MI request with the record's payload. A CLI request is
resolved later, from the framed console echo stream. -/

/-- The interpreter tag attached to each queued request by `_exec`. -/
inductive Interp where
  | mi
  | cli
deriving Repr, DecidableEq

/-- A pending request as written to `this._queue` by `_exec` (the `resolve`
and `reject` callbacks are represented by the eventual `Outcome`). -/
structure Request where
  cmd : String
  interp : Interp
deriving Repr

/-- Whether a parsed record is a result record (the `results` stream
filter). -/
def Record.isResult : Record → Bool
  | .result _ _ => true
  | _ => false

/-- The `state` property of a record (its class). -/
def resState : Record → String
  | .result st _ => st
  | .exec st _ => st
  | .status st _ => st
  | .notify st _ => st
  | _ => ""

/-- The `data` property of a record carrying a payload object. -/
def resData : Record → JSObj
  | .result _ d => d
  | .exec _ d => d
  | .status _ d => d
  | .notify _ d => d
  | _ => []

/-- The result-record substream of the parsed-record stream. -/
def resultRecords (recs : List Record) : List Record :=
  recs.filter Record.isResult

/-- How a request settles: resolved with a payload, or rejected with a
`GDBError` carrying the command, the message text and the numeric code. -/
inductive Outcome where
  | resolved (payload : JSObj)
  | rejected (cmd : String) (message : String) (code : Option Int)
deriving Repr

/-- The `GDBError` message text built in the error branch of the results
stream. -/
def gdbErrorText (cmd : String) (data : JSObj) : String :=
  "Error while executing \"" ++ cmd ++ "\". " ++ jsDisplay (jsLookup data "msg")

/-- How the `i`-th enqueued request settles, given the full sequence of
records arriving on the output stream: the `i`-th result record pairs with
it (the zip); an `error` class rejects it, a non-error class resolves an MI
request with the payload. A CLI request (which waits for its console echo)
and a request with no paired result record settle never — there is no other
settlement path in the constructor. -/
def settleOutcome (recs : List Record) (reqs : List Request) (i : Nat) :
    Option Outcome :=
  match (resultRecords recs).get? i, reqs.get? i with
  | some r, some q =>
    if resState r = "error" then
      some (.rejected q.cmd (gdbErrorText q.cmd (resData r))
        (toIntJS (jsLookup (resData r) "code")))
    else if q.interp = .mi then some (.resolved (resData r))
    else none
  | _, _ => none

/-! The serialization mutex `_sync`: `this._lock = this._lock.then(task, task)`.
Because the next task is installed as both the fulfillment and the rejection
handler of the previous chain promise, each public call's task runs strictly
after the previous task's promise settled, whether it succeeded or failed.
The chain is embedded as the sequential event trace of the enqueued tasks,
identified by call order. -/

/-- A public call's task: the bytes it writes to the subprocess stdin while
it runs, and whether its promise eventually rejects (the `failed` flag is
never consulted by the chain — `.then(task, task)` runs the next task in
both cases). -/
structure MTask where
  sends : List String
  failed : Bool
deriving Repr

/-- Observable events of the chain: a task writing bytes, and a task's
promise settling. Tasks are identified by their position in call order. -/
inductive Ev where
  | send (task : Nat) (bytes : String)
  | settle (task : Nat)
deriving Repr, DecidableEq

/-- The task a chain event belongs to. -/
def Ev.task : Ev → Nat
  | .send n _ => n
  | .settle n => n

/-- Running one task to completion: its writes, then the settlement of its
promise. -/
def runEvents (n : Nat) (t : MTask) : List Ev :=
  t.sends.map (Ev.send n) ++ [Ev.settle n]

/-- The event trace of the promise chain starting at call number `n`. -/
def syncFrom : Nat → List MTask → List Ev
  | _, [] => []
  | n, t :: ts => runEvents n t ++ syncFrom (n + 1) ts

/-- The event trace produced by `_sync` for the given sequence of public
calls. -/
def syncChain (ts : List MTask) : List Ev := syncFrom 0 ts

/-! The `stopped` handler of the `GDB` constructor, lines 243–263 of
`index.js`. -/

/-- The `Frame` entity built by the stopped handler (`frame.js` ctor stores
the options verbatim; `line` went through `toInt`). -/
structure FrameEv where
  file : Option JSVal
  line : Option Int
deriving Repr

/-- The `Thread` entity built by the stopped handler. -/
structure ThreadEv where
  id : Option Int
  frame : FrameEv
  status : String
deriving Repr

/-- The `Breakpoint` entity built by the stopped handler (id only). -/
structure BkptEv where
  id : Option Int
deriving Repr

/-- The payload emitted with the `stopped` event. -/
structure StoppedEvent where
  reason : Option JSVal
  thread : Option ThreadEv
  breakpoint : Option BkptEv
deriving Repr

/-- The strict comparison `data.reason === 'breakpoint-hit'`. -/
def isBreakpointHit (r : Option JSVal) : Bool :=
  match r with
  | some (.str s) => s == "breakpoint-hit"
  | _ => false

/-- The stopped handler: `let thread = data['thread-id']` followed by a
truthiness test (note: the string `"all"` is truthy), the construction of a
`Thread` with a `Frame` from `data.frame.fullname` and `data.frame.line`
(a TypeError when `data.frame` is undefined), and a `Breakpoint` from
`data.bkptno` exactly when the reason is `breakpoint-hit`. -/
def stoppedHandler (d : JSObj) : Except Unit StoppedEvent :=
  let threadId := jsLookup d "thread-id"
  let reason := jsLookup d "reason"
  let bp : Option BkptEv :=
    if isBreakpointHit reason then
      some { id := toIntJS (jsLookup d "bkptno") }
    else none
  if truthy threadId then
    match propAccess (jsLookup d "frame") "fullname",
        propAccess (jsLookup d "frame") "line" with
    | .ok fl, .ok ln =>
      .ok
        { reason := reason
          thread := some
            { id := toIntJS threadId
              frame := { file := fl, line := toIntJS ln }
              status := "stopped" }
          breakpoint := bp }
    | _, _ => .error ()
  else .ok { reason := reason, thread := none, breakpoint := bp }

/-! The embedded-event extractor, lines 342–347 of `index.js`: every console
record is scanned with the global regex for event frames, each frame is then
run through the capturing regex, and the handler emits `msg[1]` (the event
name) with `msg[2]` — the raw payload text, with no JSON decoding. -/

/-- Whether `l` begins with `[a-z-]+` immediately followed by the literal
`:event:gdbjs>` — the tail of the capturing regex after the payload's
separating space (the name class excludes the colon, so the greedy scan is
deterministic). -/
def tailFrameMatches (l : List Char) : Bool :=
  let n2 := l.takeWhile isNameChar
  !n2.isEmpty && ":event:gdbjs>".toList.isPrefixOf (l.drop n2.length)

/-- The lazy capture `(.*?)` before ` [a-z-]+:event:gdbjs>`: the shortest
prefix whose continuation matches the tail of the regex. -/
def splitPayloadLazy : List Char → Option (List Char)
  | [] => none
  | c :: r =>
    if c = ' ' && tailFrameMatches r then some []
    else (splitPayloadLazy r).map (fun p => c :: p)

/-- Run the capturing regex
`<gdbjs:event:([a-z-]+) (.*?) [a-z-]+:event:gdbjs>` anchored at the start of
`l`, yielding the two captures. -/
def matchEventAt (l : List Char) : Option (String × String) :=
  if "<gdbjs:event:".toList.isPrefixOf l then
    let r := l.drop 13
    let name := r.takeWhile isNameChar
    if name.isEmpty then none
    else
      match r.drop name.length with
      | ' ' :: r2 => (splitPayloadLazy r2).map (fun p => (String.mk name, String.mk p))
      | _ => none
  else none

/-- `exec` of the capturing regex: leftmost match anywhere in the string. -/
def execEventRegex : List Char → Option (String × String)
  | [] => none
  | c :: r =>
    match matchEventAt (c :: r) with
    | some nm => some nm
    | none => execEventRegex r

/-- Scan for the closing delimiter of the non-capturing frame regex: split
`l` into the (lazy) part before the first `:event:gdbjs>` and the rest after
it. -/
def findFrameClose : List Char → Option (List Char × List Char)
  | [] => none
  | c :: r =>
    if ":event:gdbjs>".toList.isPrefixOf (c :: r) then
      some ([], (c :: r).drop 13)
    else (findFrameClose r).map (fun p => (c :: p.1, p.2))

/-- Match `<gdbjs:event:.*?:event:gdbjs>` at the start of `l`, returning the
matched substring and the rest of the input. -/
def matchFrameAt (l : List Char) : Option (List Char × List Char) :=
  if "<gdbjs:event:".toList.isPrefixOf l then
    (findFrameClose (l.drop 13)).map (fun p =>
      ("<gdbjs:event:".toList ++ p.1 ++ ":event:gdbjs>".toList, p.2))
  else none

/-- `String.match` with the global frame regex: all non-overlapping leftmost
matches. -/
def eventFrames : Nat → List Char → List (List Char)
  | 0, _ => []
  | _, [] => []
  | fuel + 1, c :: r =>
    match matchFrameAt (c :: r) with
    | some (m, rest) => m :: eventFrames fuel rest
    | none => eventFrames fuel r

/-- Run the capturing regex over every extracted frame and emit the pair of
captures; a frame the capturing regex does not match makes the handler read
`msg[1]` of `null`, a TypeError. -/
def emitAll : List (List Char) → Except Unit (List (String × String))
  | [] => .ok []
  | f :: r =>
    match execEventRegex f with
    | some nm => do
      let rest ← emitAll r
      .ok (nm :: rest)
    | none => .error ()

/-- The events the extractor emits for one console record's text: event name
paired with the raw matched payload text (the source performs no
`JSON.parse` here). -/
def emittedEvents (data : String) : Except Unit (List (String × String)) :=
  emitAll (eventFrames (data.length + 1) data.toList)

/-- Modelled from the spec: framed payloads are JSON-encoded (the
debugger-side Python scripts that produce the frames are not part of the
core sources); this decodes the JSON string literals that string-valued
events such as `new-objfile` carry. Decode one JSON escape. -/
def jsonEscDecode (c : Char) : Option Char :=
  if c = '"' then some '"'
  else if c = '\\' then some '\\'
  else if c = '/' then some '/'
  else if c = 'b' then some (Char.ofNat 8)
  else if c = 'f' then some (Char.ofNat 12)
  else if c = 'n' then some '\n'
  else if c = 'r' then some '\r'
  else if c = 't' then some '\t'
  else none

/-- Modelled from the spec: body of a JSON string literal up to and
including the closing quote. -/
def jsonStrBody : List Char → Option (List Char)
  | ['"'] => some []
  | '\\' :: c :: r => do
    let d ← jsonEscDecode c
    let b ← jsonStrBody r
    pure (d :: b)
  | '"' :: _ :: _ => none
  | c :: r => do
    let b ← jsonStrBody r
    pure (c :: b)
  | [] => none

/-- Modelled from the spec: `JSON.parse` restricted to string literals, the
decoding the specification prescribes for framed event payloads. -/
def jsonDecodeString (s : String) : Option String :=
  match s.toList with
  | '"' :: r => (jsonStrBody r).map String.mk
  | _ => none

/-! The preserve-thread envelope `_preserveThread` and the dispatch paths
that use it (`_execMI` with a thread-group scope, `_execCMD` with a thread
or thread-group scope). The debugger's selected thread is the shared
register; the wrapped command may move it arbitrarily. -/

/-- The debugger-side state the dispatcher interacts with: the selected
thread register. -/
structure GdbState where
  currentThread : Option Nat
deriving Repr

/-- Modelled from the spec: the debugger-side `thread` helper command
returns the currently selected thread (the Python scripts are not part of
the core sources). `_currentThread` then yields `null` for a falsy id. -/
def currentThreadJS (s : GdbState) : Option Nat :=
  match s.currentThread with
  | some i => if i = 0 then none else some i
  | none => none

/-- `_selectThread`: `-thread-select <id>` sets the selected-thread
register. -/
def selectThreadOp (id : Nat) (s : GdbState) : GdbState :=
  { s with currentThread := some id }

/-- `_preserveThread`: capture the current thread, run the task, and restore
the captured thread if one was selected. -/
def preserveThread (task : GdbState → GdbState) (s : GdbState) : GdbState :=
  let t := currentThreadJS s
  let s1 := task s
  match t with
  | some id => selectThreadOp id s1
  | none => s1

/-- `_execMI` with a `ThreadGroup` scope: the `--thread-group` injection
(whose thread-moving side effect is the command itself, passed here as an
arbitrary state transformer) wrapped in the preserve-thread envelope. -/
def execMIGroupScope (gexec : GdbState → GdbState) : GdbState → GdbState :=
  preserveThread gexec

/-- `_execCMD` with a `Thread` scope: select the scope thread, run the
command, all inside the preserve-thread envelope. -/
def execCMDThreadScope (tid : Nat) (run : GdbState → GdbState) :
    GdbState → GdbState :=
  preserveThread (fun s => run (selectThreadOp tid s))

/-- `_execCMD` with a `ThreadGroup` scope: select the thread group (which
moves the selected thread arbitrarily), run the command, all inside the
preserve-thread envelope. -/
def execCMDGroupScope (selGroup : GdbState → GdbState)
    (run : GdbState → GdbState) : GdbState → GdbState :=
  preserveThread (fun s => run (selGroup s))

/-! The breakpoint facade: `addBreak`, `addFunctionBreak`, `addLabelBreak`
delegate to `addOptionsBreak` without forwarding their `thread` argument;
`addOptionsBreak` builds the `-break-insert` command and the `Breakpoint`
entity. -/

/-- The `opt` string of `addOptionsBreak`: `-p <id>` when a thread was
passed, empty otherwise. -/
def breakInsertOpt (thread : Option Nat) : String :=
  match thread with
  | some id => "-p " ++ toString id
  | none => ""

/-- The MI command `addOptionsBreak` sends:
`-break-insert ${opt} ${options}`. -/
def addOptionsBreakCmd (options : String) (thread : Option Nat) : String :=
  "-break-insert " ++ breakInsertOpt thread ++ " " ++ options

/-- The command produced by `addBreak(file, pos, thread)`, which delegates
to `addOptionsBreak` with only the location string. -/
def addBreakCmd (file : String) (pos : String) (thread : Option Nat) : String :=
  addOptionsBreakCmd (file ++ ":" ++ pos) none

/-- The command produced by `addFunctionBreak(label, thread)`. -/
def addFunctionBreakCmd (label : String) (thread : Option Nat) : String :=
  addOptionsBreakCmd ("--function " ++ label) none

/-- The command produced by `addLabelBreak(label, thread)`. -/
def addLabelBreakCmd (label : String) (thread : Option Nat) : String :=
  addOptionsBreakCmd ("--label " ++ label) none

/-- A JavaScript field value as stored by the `Breakpoint` constructor:
undefined/null, a parser value, or a number (possibly NaN). -/
inductive JSField where
  | missing
  | ofVal (v : JSVal)
  | ofNum (n : Option Int)
deriving Repr

/-- Truthiness of a stored field value. -/
def truthyF : JSField → Bool
  | .missing => false
  | .ofVal v => truthyV v
  | .ofNum n =>
    match n with
    | some i => decide (i ≠ 0)
    | none => false

/-- The `options.x || null` normalization in the `Breakpoint` constructor. -/
def orNull (f : JSField) : JSField := if truthyF f then f else .missing

/-- An optional parser value as a field. -/
def fieldOf : Option JSVal → JSField
  | some v => .ofVal v
  | none => .missing

/-- Property read on a defined value (never throws; non-objects yield
undefined). -/
def jsPropV (v : JSVal) (k : String) : Option JSVal :=
  match v with
  | .obj l => jsLookup l k
  | _ => none

/-- The `Breakpoint` entity as constructed by `addOptionsBreak`
(`breakpoint.js` constructor applied to the fields the method passes). -/
structure BreakpointEnt where
  id : Option Int
  file : JSField
  line : JSField
  func : JSField
  thread : Option Nat
deriving Repr

/-- The `Breakpoint` construction of `addOptionsBreak` from the `bkpt`
payload of the `-break-insert` reply: the array shape (several tuples
collapsed under the `bkpt` name) reads `bkpt[0].number`, `bkpt[1].fullname`,
`bkpt[1].line` (a TypeError when those elements are missing) and collects the
truthy `func` values; the single-tuple shape reads the fields directly, with
`line` put through `toInt`. The `thread` argument lands in the entity's
`thread` field. -/
def mkBreakpoint (bkpt : JSVal) (thread : Option Nat) :
    Except Unit BreakpointEnt :=
  match bkpt with
  | .arr l =>
    match propAccess (l.get? 0) "number", propAccess (l.get? 1) "fullname",
        propAccess (l.get? 1) "line" with
    | .ok n0, .ok f1, .ok l1 =>
      let funcs := l.filterMap (fun b =>
        match jsPropV b "func" with
        | some v => if truthyV v then some v else none
        | none => none)
      .ok
        { id := toIntJS n0
          file := orNull (fieldOf f1)
          line := orNull (fieldOf l1)
          func := orNull (.ofVal (JSVal.arr funcs))
          thread := thread }
    | _, _, _ => .error ()
  | b => .ok
      { id := toIntJS (jsPropV b "number")
        file := orNull (fieldOf (jsPropV b "fullname"))
        line := orNull (.ofNum (toIntJS (jsPropV b "line")))
        func := orNull (fieldOf (jsPropV b "func"))
        thread := thread }

/-- The `Breakpoint` returned by `addBreak`, whose delegation drops the
`thread` argument. -/
def addBreakEnt (bkpt : JSVal) (thread : Option Nat) :
    Except Unit BreakpointEnt :=
  mkBreakpoint bkpt none

/-! Helper lemmas about the serialization chain. -/

/-- Every event produced by running one task belongs to that task. -/
theorem runEvents_task (n : Nat) (t : MTask) (e : Ev) (h : e ∈ runEvents n t) :
    e.task = n := by
  unfold runEvents at h
  rcases List.mem_append.mp h with hm | hm
  · rcases List.mem_map.mp hm with ⟨x, _, rfl⟩
    rfl
  · rw [List.mem_singleton] at hm
    subst hm
    rfl

/-- Events of the chain starting at call `n` belong to calls numbered at
least `n`. -/
theorem syncFrom_task_ge (ts : List MTask) :
    ∀ n k e, (syncFrom n ts).get? k = some e → n ≤ e.task := by
  induction ts with
  | nil =>
    intro n k e h
    simp [syncFrom] at h
  | cons t ts ih =>
    intro n k e h
    rw [syncFrom] at h
    by_cases hk : k < (runEvents n t).length
    · rw [List.get?_append hk] at h
      have := runEvents_task n t e (List.get?_mem h)
      omega
    · rw [List.get?_append_right (Nat.le_of_not_lt hk)] at h
      have := ih (n + 1) _ _ h
      omega

/-- In the chain trace, a send of a later call occurs strictly after the
settlement of any earlier call. -/
theorem syncFrom_send_after_settle (ts : List MTask) :
    ∀ n i j k1 k2 b, n ≤ i → i < j →
      (syncFrom n ts).get? k1 = some (Ev.send j b) →
      (syncFrom n ts).get? k2 = some (Ev.settle i) →
      k2 < k1 := by
  induction ts with
  | nil =>
    intro n i j k1 k2 b _ _ hsend _
    simp [syncFrom] at hsend
  | cons t ts ih =>
    intro n i j k1 k2 b hni hij hsend hsettle
    rw [syncFrom] at hsend hsettle
    by_cases hk1 : k1 < (runEvents n t).length
    · exfalso
      rw [List.get?_append hk1] at hsend
      have hj := runEvents_task n t _ (List.get?_mem hsend)
      simp [Ev.task] at hj
      omega
    · have hk1' := Nat.le_of_not_lt hk1
      rw [List.get?_append_right hk1'] at hsend
      by_cases hk2 : k2 < (runEvents n t).length
      · omega
      · have hk2' := Nat.le_of_not_lt hk2
        rw [List.get?_append_right hk2'] at hsettle
        have hni2 : n + 1 ≤ i := by
          have := syncFrom_task_ge ts (n + 1) _ _ hsettle
          simpa [Ev.task] using this
        have := ih (n + 1) i j _ _ b hni2 hij hsend hsettle
        omega

/-- In the chain trace, promises settle in call order. -/
theorem syncFrom_settle_mono (ts : List MTask) :
    ∀ n i j k1 k2, i < j →
      (syncFrom n ts).get? k1 = some (Ev.settle i) →
      (syncFrom n ts).get? k2 = some (Ev.settle j) →
      k1 < k2 := by
  induction ts with
  | nil =>
    intro n i j k1 k2 _ h1 _
    simp [syncFrom] at h1
  | cons t ts ih =>
    intro n i j k1 k2 hij h1 h2
    rw [syncFrom] at h1 h2
    by_cases hk2 : k2 < (runEvents n t).length
    · exfalso
      rw [List.get?_append hk2] at h2
      have hj := runEvents_task n t _ (List.get?_mem h2)
      simp [Ev.task] at hj
      by_cases hk1 : k1 < (runEvents n t).length
      · rw [List.get?_append hk1] at h1
        have hi := runEvents_task n t _ (List.get?_mem h1)
        simp [Ev.task] at hi
        omega
      · rw [List.get?_append_right (Nat.le_of_not_lt hk1)] at h1
        have := syncFrom_task_ge ts (n + 1) _ _ h1
        simp [Ev.task] at this
        omega
    · by_cases hk1 : k1 < (runEvents n t).length
      · omega
      · rw [List.get?_append_right (Nat.le_of_not_lt hk1)] at h1
        rw [List.get?_append_right (Nat.le_of_not_lt hk2)] at h2
        have := ih (n + 1) i j _ _ hij h1 h2
        omega

/-! Helper lemmas about the breakpoint construction. -/

/-- The `thread` field of a constructed breakpoint is exactly the `thread`
argument that `addOptionsBreak` received. -/
theorem mkBreakpoint_thread (bkpt : JSVal) (t : Option Nat)
    (b : BreakpointEnt) (h : mkBreakpoint bkpt t = .ok b) : b.thread = t := by
  unfold mkBreakpoint at h
  split at h
  · split at h
    · injection h with h
      subst h
      rfl
    · cases h
  · injection h with h
    subst h
    rfl

/-- The `thread` field of a settled breakpoint construction, `none` when the
construction threw. -/
def threadField : Except Unit BreakpointEnt → Option Nat
  | .ok b => b.thread
  | .error _ => none

/-! Claim theorems. -/

/-- C1: with `N` requests enqueued and exactly `N` result records arriving,
the `i`-th result record pairs with the `i`-th enqueued request, and an MI
request whose paired result class is not `error` resolves with that result
record's payload. -/
theorem mi_request_resolves_with_ith_payload
    (recs : List Record) (reqs : List Request) (i : Nat)
    (hN : (resultRecords recs).length = reqs.length)
    (r : Record) (q : Request)
    (hr : (resultRecords recs).get? i = some r)
    (hq : reqs.get? i = some q)
    (hmi : q.interp = Interp.mi)
    (herr : resState r ≠ "error") :
    settleOutcome recs reqs i = some (Outcome.resolved (resData r)) := by
  unfold settleOutcome
  rw [hr, hq]
  simp [herr, hmi]

/-- Witness for C1: a single `-data-evaluate-expression` call paired with a
single `^done` record resolves with the record's payload. -/
theorem mi_request_resolves_with_ith_payload_witness :
    settleOutcome [Record.result "done" [("value", JSVal.str "3735928559")]]
      [{ cmd := "-data-evaluate-expression 0xdeadbeef", interp := Interp.mi }]
      0 =
      some (Outcome.resolved [("value", JSVal.str "3735928559")]) := by
  exact mi_request_resolves_with_ith_payload
    [Record.result "done" [("value", JSVal.str "3735928559")]]
    [{ cmd := "-data-evaluate-expression 0xdeadbeef", interp := Interp.mi }]
    0 rfl (Record.result "done" [("value", JSVal.str "3735928559")])
    { cmd := "-data-evaluate-expression 0xdeadbeef", interp := Interp.mi }
    rfl rfl rfl (by decide)

/-- C2 counterexample: the subprocess closed its output with one request
pending (no result record ever arrived); the request is not rejected with
any error — it never settles at all, so the claimed "process terminated"
rejection does not happen. -/
theorem terminated_pending_request_never_rejected_cex :
    settleOutcome [] [{ cmd := "-gdb-exit", interp := Interp.mi }] 0 =
      none := rfl

/-- C2 amended: there is no termination handling; a request with no paired
result record — in particular every request pending when the stream ends,
and every request enqueued afterwards — never settles. -/
theorem requests_beyond_results_never_settle
    (recs : List Record) (reqs : List Request) (i : Nat)
    (h : (resultRecords recs).length ≤ i) :
    settleOutcome recs reqs i = none := by
  unfold settleOutcome
  rw [List.get?_eq_none.mpr h]

/-- Witness for the amended C2: one result record arrived before the stream
ended; the second request stays pending forever. -/
theorem requests_beyond_results_never_settle_witness :
    (resultRecords [Record.result "done" []]).length ≤ 1 ∧
    settleOutcome [Record.result "done" []]
      [{ cmd := "-gdb-set x y", interp := Interp.mi },
       { cmd := "-gdb-exit", interp := Interp.mi }] 1 = none := by
  refine ⟨by decide, ?_⟩
  exact requests_beyond_results_never_settle _ _ 1 (by decide)

/-- C3: in the trace of the `_sync` promise chain, a send performed by a
later public call occurs strictly after the settlement of any earlier call's
promise, and promises settle in call order. -/
theorem public_calls_serialized (ts : List MTask) (i j k1 k2 : Nat)
    (b : String) (hij : i < j)
    (hsend : (syncChain ts).get? k1 = some (Ev.send j b))
    (hsettle : (syncChain ts).get? k2 = some (Ev.settle i)) :
    k2 < k1 ∧
    ∀ k3, (syncChain ts).get? k3 = some (Ev.settle j) → k2 < k3 := by
  constructor
  · exact syncFrom_send_after_settle ts 0 i j k1 k2 b (Nat.zero_le i) hij
      hsend hsettle
  · intro k3 h3
    exact syncFrom_settle_mono ts 0 i j k2 k3 hij hsettle h3

/-- Witness for C3: two chained calls, the second one failing; the second
call's send comes after the first call's settlement, which precedes the
second settlement. -/
theorem public_calls_serialized_witness :
    (1 : Nat) < 2 ∧
    ∀ k3,
      (syncChain [{ sends := ["-gdb-set x y\n"], failed := false },
        { sends := ["-exec-run\n"], failed := true }]).get? k3 =
        some (Ev.settle 1) →
      1 < k3 := by
  exact public_calls_serialized
    [{ sends := ["-gdb-set x y\n"], failed := false },
      { sends := ["-exec-run\n"], failed := true }]
    0 1 2 1 "-exec-run\n" (by decide) rfl rfl

/-- C4: the parser is not total — a line with surplus characters after a
fully matched stream record makes the committed PEG alternative leave input
unconsumed, and the generated parser throws a SyntaxError instead of
falling back to a raw record. -/
theorem parse_throws_on_surplus_chars :
    parseMI "~\"hi\" trailing" = .error () := rfl

/-- C5: on the specification's own example
`+download,{section=".isr_vector",section-size="776"}` the flattening helper
reads the name of the entry before the first one (`arr[-1]`, i.e.
`undefined`) and throws a TypeError; no record with an `unnamed` key is
produced. -/
theorem leading_unnamed_entry_throws :
    parseMI "+download,\x7bsection=\".isr_vector\",section-size=\"776\"\x7d" =
      .error () := rfl

/-- C6: the grammar's name rule is `[a-z-]+`, so the name `has_more` stops
matching at the underscore, the results list ends early, and the leftover
`,has_more="0"` makes the parser throw instead of producing
`data.has_more = "0"`. -/
theorem underscore_name_throws :
    parseMI
      "^done,name=\"v1\",numchild=\"0\",value=\"1\",type=\"int\",thread-id=\"1\",has_more=\"0\"" =
      .error () := rfl

/-- A stopped record's payload with `thread-id="all"`, as the claim's iff
would require the thread property to be absent. -/
def stoppedAllData : JSObj :=
  [("reason", JSVal.str "signal-received"), ("thread-id", JSVal.str "all"),
   ("frame", JSVal.obj [("fullname", JSVal.str "/a.c"),
     ("line", JSVal.str "1")])]

/-- C7 counterexample: on a stopped record with `thread-id = "all"` the
handler still builds a thread (the source only tests truthiness, and `"all"`
is truthy), contradicting "thread present iff `data.thread-id` is present
and not equal to `all`". -/
theorem stopped_thread_all_still_present_cex :
    jsLookup stoppedAllData "thread-id" = some (JSVal.str "all") ∧
    (stoppedHandler stoppedAllData).map (fun ev => ev.thread.isSome) =
      .ok true := ⟨rfl, rfl⟩

/-- The thread entity the amended C7 predicts when the thread id is
truthy. -/
def stoppedThreadEv (d fl : JSObj) : ThreadEv where
  id := toIntJS (jsLookup d "thread-id")
  frame := { file := jsLookup fl "fullname", line := toIntJS (jsLookup fl "line") }
  status := "stopped"

/-- The breakpoint entity the amended C7 predicts. -/
def stoppedBpEv (d : JSObj) : Option BkptEv :=
  if isBreakpointHit (jsLookup d "reason") then
    some { id := toIntJS (jsLookup d "bkptno") }
  else none

/-- C7 amended: for a stopped record whose payload carries a frame tuple,
the handler emits an event with `reason = data.reason`; the thread is
present iff `data.thread-id` is truthy (present and nonempty — including the
value `"all"`, whose id then parses to NaN), built from the frame's
`fullname` and `line` with status `stopped`; the breakpoint is present iff
the reason is `breakpoint-hit`, with id from `bkptno`. (Without a frame
tuple the handler would throw for a truthy thread id.) -/
theorem stopped_event_shape (d : JSObj) (fl : JSObj)
    (hframe : jsLookup d "frame" = some (JSVal.obj fl)) :
    ∃ ev, stoppedHandler d = .ok ev ∧
      ev.reason = jsLookup d "reason" ∧
      ev.thread.isSome = truthy (jsLookup d "thread-id") ∧
      ev.breakpoint.isSome = isBreakpointHit (jsLookup d "reason") ∧
      (∀ t, ev.thread = some t →
        t.id = toIntJS (jsLookup d "thread-id") ∧
        t.frame.file = jsLookup fl "fullname" ∧
        t.frame.line = toIntJS (jsLookup fl "line") ∧
        t.status = "stopped") ∧
      (∀ bp, ev.breakpoint = some bp →
        bp.id = toIntJS (jsLookup d "bkptno")) := by
  by_cases h : truthy (jsLookup d "thread-id")
  · refine ⟨{ reason := jsLookup d "reason", thread := some (stoppedThreadEv d fl), breakpoint := stoppedBpEv d }, ?_, rfl, ?_, ?_, ?_, ?_⟩
    · simp only [stoppedHandler]
      rw [hframe, if_pos h]
      rfl
    · simp [h]
    · unfold stoppedBpEv
      by_cases hb : isBreakpointHit (jsLookup d "reason") <;> simp [hb]
    · intro t ht
      injection ht with ht
      subst ht
      exact ⟨rfl, rfl, rfl, rfl⟩
    · intro bp hbp
      unfold stoppedBpEv at hbp
      by_cases hb : isBreakpointHit (jsLookup d "reason")
      · rw [if_pos hb] at hbp
        injection hbp with hbp
        subst hbp
        rfl
      · rw [if_neg hb] at hbp
        cases hbp
  · refine ⟨{ reason := jsLookup d "reason", thread := none, breakpoint := stoppedBpEv d }, ?_, rfl, ?_, ?_, ?_, ?_⟩
    · simp only [stoppedHandler]
      rw [if_neg h]
      rfl
    · have h1 : truthy (jsLookup d "thread-id") = false := by
        simpa using h
      rw [h1]
      rfl
    · unfold stoppedBpEv
      by_cases hb : isBreakpointHit (jsLookup d "reason") <;> simp [hb]
    · intro t ht
      cases ht
    · intro bp hbp
      unfold stoppedBpEv at hbp
      by_cases hb : isBreakpointHit (jsLookup d "reason")
      · rw [if_pos hb] at hbp
        injection hbp with hbp
        subst hbp
        rfl
      · rw [if_neg hb] at hbp
        cases hbp

/-- A concrete breakpoint-hit stopped payload (the specification's scenario
3). -/
def stoppedHitData : JSObj :=
  [("reason", JSVal.str "breakpoint-hit"), ("bkptno", JSVal.str "1"),
   ("thread-id", JSVal.str "1"),
   ("frame", JSVal.obj [("fullname", JSVal.str "/p/hello.c"),
     ("line", JSVal.str "9")])]

/-- The frame tuple inside `stoppedHitData`. -/
def stoppedHitFrame : JSObj :=
  [("fullname", JSVal.str "/p/hello.c"), ("line", JSVal.str "9")]

/-- Witness for the amended C7, at the scenario-3 record. -/
theorem stopped_event_shape_witness :
    ∃ ev, stoppedHandler stoppedHitData = .ok ev ∧
      ev.reason = jsLookup stoppedHitData "reason" ∧
      ev.thread.isSome = truthy (jsLookup stoppedHitData "thread-id") ∧
      ev.breakpoint.isSome =
        isBreakpointHit (jsLookup stoppedHitData "reason") ∧
      (∀ t, ev.thread = some t →
        t.id = toIntJS (jsLookup stoppedHitData "thread-id") ∧
        t.frame.file = jsLookup stoppedHitFrame "fullname" ∧
        t.frame.line = toIntJS (jsLookup stoppedHitFrame "line") ∧
        t.status = "stopped") ∧
      (∀ bp, ev.breakpoint = some bp →
        bp.id = toIntJS (jsLookup stoppedHitData "bkptno")) := by
  exact stopped_event_shape stoppedHitData stoppedHitFrame rfl

/-- The framed `new-objfile` console text whose payload is the
JSON-encoded path. -/
def objfileFrame : String :=
  "<gdbjs:event:new-objfile \"/examples/hello-world/main\" new-objfile:event:gdbjs>"

/-- C8: the extractor emits the raw matched payload text (`msg[2]`), not its
JSON decoding: for the `new-objfile` frame the emitted payload still carries
the JSON quotes, while the decoding the claim requires yields the bare
path — and the two differ. -/
theorem event_payload_emitted_raw :
    emittedEvents objfileFrame =
      .ok [("new-objfile", "\"/examples/hello-world/main\"")] ∧
    jsonDecodeString "\"/examples/hello-world/main\"" =
      some "/examples/hello-world/main" ∧
    "\"/examples/hello-world/main\"" ≠ "/examples/hello-world/main" := by
  refine ⟨rfl, rfl, ?_⟩
  decide

/-- C9: the three dispatch paths that switch the thread group (`_execMI`
with a thread-group scope, `_execCMD` with a thread or a thread-group scope)
are wrapped in `_preserveThread`, so whatever the wrapped command does to
the selected-thread register, the thread selected before the operation is
selected again after it. -/
theorem thread_group_ops_preserve_current_thread
    (mi sel cmd1 cmd2 : GdbState → GdbState) (tid id : Nat) (s : GdbState)
    (hsel : s.currentThread = some id) (hnz : id ≠ 0) :
    (execMIGroupScope mi s).currentThread = some id ∧
    (execCMDThreadScope tid cmd1 s).currentThread = some id ∧
    (execCMDGroupScope sel cmd2 s).currentThread = some id := by
  unfold execMIGroupScope execCMDThreadScope execCMDGroupScope
  simp [preserveThread, currentThreadJS, hsel, hnz, selectThreadOp]

/-- Witness for C9: thread 2 selected; a command that moves the register to
thread 9 still leaves thread 2 selected after each dispatch path. -/
theorem thread_group_ops_preserve_current_thread_witness :
    (execMIGroupScope (fun _ => { currentThread := some 9 })
      { currentThread := some 2 }).currentThread = some 2 ∧
    (execCMDThreadScope 5 (fun _ => { currentThread := some 9 })
      { currentThread := some 2 }).currentThread = some 2 ∧
    (execCMDGroupScope (fun _ => { currentThread := some 9 })
      (fun _ => { currentThread := none })
      { currentThread := some 2 }).currentThread = some 2 := by
  exact thread_group_ops_preserve_current_thread
    (fun _ => { currentThread := some 9 })
    (fun _ => { currentThread := some 9 })
    (fun _ => { currentThread := some 9 })
    (fun _ => { currentThread := none })
    5 2 { currentThread := some 2 } rfl (by decide)

/-- C10: `addBreak`, `addFunctionBreak` and `addLabelBreak` drop their
`thread` argument: each delegates to `addOptionsBreak` with no thread, the
command sent therefore carries no `-p` option (only the location or
function/label option, after the doubled space left by the empty `opt`),
and the breakpoint built from the reply has a null thread; only
`addOptionsBreak` itself injects `-p <id>` and stores the thread. -/
theorem break_methods_drop_thread_argument
    (file pos fnLabel lbLabel options : String) (t : Option Nat) (id : Nat)
    (bkpt bk2 : JSVal) :
    addBreakCmd file pos t = addOptionsBreakCmd (file ++ ":" ++ pos) none ∧
    addFunctionBreakCmd fnLabel t =
      addOptionsBreakCmd ("--function " ++ fnLabel) none ∧
    addLabelBreakCmd lbLabel t =
      addOptionsBreakCmd ("--label " ++ lbLabel) none ∧
    addOptionsBreakCmd (file ++ ":" ++ pos) none =
      "-break-insert  " ++ (file ++ ":" ++ pos) ∧
    threadField (addBreakEnt bkpt t) = none ∧
    addOptionsBreakCmd options (some id) =
      "-break-insert -p " ++ toString id ++ (" " ++ options) ∧
    (∀ b, mkBreakpoint bk2 (some id) = .ok b → b.thread = some id) := by
  refine ⟨rfl, rfl, rfl, rfl, ?_, ?_, ?_⟩
  · unfold threadField addBreakEnt
    cases hmk : mkBreakpoint bkpt none with
    | error e => rfl
    | ok b => exact mkBreakpoint_thread bkpt none b hmk
  · unfold addOptionsBreakCmd breakInsertOpt
    rw [← String.append_assoc "-break-insert " "-p " (toString id)]
    rw [String.append_assoc]
    rfl
  · intro b hb
    exact mkBreakpoint_thread bk2 (some id) b hb

/-- Witness for C10: a thread is supplied to `addBreak`, yet the command and
the breakpoint thread field are those of a thread-less `addOptionsBreak`;
with the thread passed to `addOptionsBreak` directly, `-p 2` is injected
and the thread is stored. -/
theorem break_methods_drop_thread_argument_witness :
    addBreakCmd "hello.c" "4" (some 2) =
      addOptionsBreakCmd ("hello.c" ++ ":" ++ "4") none ∧
    addFunctionBreakCmd "main" (some 2) =
      addOptionsBreakCmd ("--function " ++ "main") none ∧
    addLabelBreakCmd "start" (some 2) =
      addOptionsBreakCmd ("--label " ++ "start") none ∧
    addOptionsBreakCmd ("hello.c" ++ ":" ++ "4") none =
      "-break-insert  " ++ ("hello.c" ++ ":" ++ "4") ∧
    threadField (addBreakEnt
      (JSVal.obj [("number", JSVal.str "1"),
        ("fullname", JSVal.str "/p/hello.c"), ("line", JSVal.str "4"),
        ("func", JSVal.str "main")]) (some 2)) = none ∧
    addOptionsBreakCmd "hello.c:4" (some 2) =
      "-break-insert -p " ++ toString 2 ++ (" " ++ "hello.c:4") ∧
    (∀ b, mkBreakpoint
        (JSVal.obj [("number", JSVal.str "1"),
          ("fullname", JSVal.str "/p/hello.c"), ("line", JSVal.str "4"),
          ("func", JSVal.str "main")]) (some 2) = .ok b →
      b.thread = some 2) := by
  exact break_methods_drop_thread_argument "hello.c" "4" "main" "start"
    "hello.c:4" (some 2) 2
    (JSVal.obj [("number", JSVal.str "1"),
      ("fullname", JSVal.str "/p/hello.c"), ("line", JSVal.str "4"),
      ("func", JSVal.str "main")])
    (JSVal.obj [("number", JSVal.str "1"),
      ("fullname", JSVal.str "/p/hello.c"), ("line", JSVal.str "4"),
      ("func", JSVal.str "main")])

end GdbJs
